import Mathlib

/-!
Verification of the core record-processing pipeline of the `policards`
repository (`src/modify_reps.py`): term-end-year normalization
(`update_endyear`), tenure ranking and party counts (`add_tenure`),
the current-member filter (`only_current`), the name normalizer
(`normalize_name`), and the alternate JSON-level normalizer (`mod_json`).

Each pandas DataFrame is embedded as a `List Rec`, one `Rec` per row.
All pandas columns are nullable, so every derived column is an
`Option Int`; `NaN` is `none`.  `astype(int)` on a column containing a
`NaN` raises in pandas, so the two functions performing that cast return
`Except Err`.
-/

/-- Errors a pipeline stage can raise.  `intCastNaN` models pandas
raising on `.astype(int)` applied to a column still containing `NaN`;
`unrecognizedChamber` is the error named by the specification (no code
path in the source produces it). -/
inductive Err where
  | intCastNaN
  | unrecognizedChamber
  deriving Repr, DecidableEq

/-- One row of the congressmen table: the flattened (member, term)
record of `gen_reps_json.flatten_user_terms`, plus every column later
added by `modify_reps`.  Columns not yet assigned default to `none`
(resp. `""` for `current_member`). -/
structure Rec where
  bioguideID : String
  name : String
  partyName : String
  state : String
  chamber : String
  startYear : Int
  endYear : Option Int
  current_member : String := ""
  duration : Option Int := none
  tenure_all_time : Option Int := none
  tenure_all_time_party : Option Int := none
  tenure_current : Option Int := none
  tenure_current_party : Option Int := none
  party_all_time_count : Option Int := none
  party_current_count : Option Int := none
  deriving Repr, DecidableEq

instance {ε α : Type} [DecidableEq ε] [DecidableEq α] : DecidableEq (Except ε α) := fun
  | .ok a, .ok b =>
    if h : a = b then .isTrue (by rw [h]) else .isFalse (by intro hc; cases hc; exact h rfl)
  | .error a, .error b =>
    if h : a = b then .isTrue (by rw [h]) else .isFalse (by intro hc; cases hc; exact h rfl)
  | .ok _, .error _ => .isFalse (by intro hc; cases hc)
  | .error _, .ok _ => .isFalse (by intro hc; cases hc)

/-! ## `update_endyear` (modify_reps.py lines 30-54)

The source performs four column assignments in order:
1. `current_member = np.where(endYear.isna(), "yes", "no")`
2. fill `endYear` for House rows with `year + 2 - (year - startYear) % 2`
3. fill `endYear` for Senate rows with `year + 6 - (year - startYear) % 6`
4. `endYear = endYear.astype(int)` — raises if any `endYear` is still `NaN`.

`year` is `int(date.today().year)` in the source (an ambient clock
read); it is taken here as an explicit argument.  numpy's `%` on a
positive divisor agrees with `Int.emod`. -/

def classifyCurrent (r : Rec) : Rec :=
  { r with current_member := if r.endYear.isNone then "yes" else "no" }

def fillHouse (year : Int) (r : Rec) : Rec :=
  if r.endYear.isNone && r.chamber == "House of Representatives" then
    { r with endYear := some (year + 2 - (year - r.startYear) % 2) }
  else r

def fillSenate (year : Int) (r : Rec) : Rec :=
  if r.endYear.isNone && r.chamber == "Senate" then
    { r with endYear := some (year + 6 - (year - r.startYear) % 6) }
  else r

def update_endyear (year : Int) (df : List Rec) : Except Err (List Rec) :=
  let df1 := df.map classifyCurrent
  let df2 := df1.map (fillHouse year)
  let df3 := df2.map (fillSenate year)
  if df3.all (fun r => r.endYear.isSome) then .ok df3 else .error .intCastNaN

/-! ## `mod_json` (modify_reps.py lines 14-24)

The JSON-level normalizer: for a record with no `endYear` key, a
case-insensitive chamber comparison fills `startYear + 6` (Senate,
checked first) or `startYear + 2` (House); anything else is untouched. -/

/-- Python's `str.lower()` for the ASCII chamber strings compared
here: character-wise lowercasing. -/
def strLower (s : String) : String := String.mk (s.data.map Char.toLower)

def mod_json_row (r : Rec) : Rec :=
  if r.endYear.isNone then
    if strLower r.chamber == strLower "Senate" then
      { r with endYear := some (r.startYear + 6) }
    else if strLower r.chamber == strLower "House of Representatives" then
      { r with endYear := some (r.startYear + 2) }
    else r
  else r

def mod_json (df : List Rec) : List Rec := df.map mod_json_row

/-! ## `add_tenure` (modify_reps.py lines 58-78)

`duration = endYear - startYear` (`NaN` propagates, hence `Option.map`).
pandas `rank(ascending=False, method='min')` assigns to each non-`NaN`
value `1 +` the number of strictly greater non-`NaN` values in its
group; `NaN` rows get a `NaN` rank.  `tenure_all_time` and
`tenure_all_time_party` are then cast with `.astype(int)` (raises on
`NaN`, i.e. whenever some `duration` is `NaN`); the current-only ranks
are masked by `np.where(current_member == "yes", ..., NaN)` and cast to
the nullable `Int64` dtype (no raise).  `groupby(...).transform('count')`
counts the non-null `bioguideID` entries of the group; `bioguideID` is a
non-null string column here, so that is the group size. -/

def isGreater (d : Int) : Option Int → Bool
  | some v => decide (d < v)
  | none => false

/-- pandas descending min-method ("competition") rank of value `d`
within the column `col`, skipping `NaN` entries. -/
def descRank (col : List (Option Int)) (d : Int) : Int :=
  1 + (col.countP (isGreater d) : Int)

def withDuration (r : Rec) : Rec :=
  { r with duration := r.endYear.map (fun e => e - r.startYear) }

def tenureColumns (df1 : List Rec) (r : Rec) : Rec :=
  { r with
    tenure_all_time :=
      r.duration.map (descRank (df1.map (fun s => s.duration)))
    tenure_all_time_party :=
      r.duration.map (descRank
        ((df1.filter (fun s => s.partyName == r.partyName)).map (fun s => s.duration)))
    tenure_current :=
      if r.current_member == "yes" then
        r.duration.map (descRank
          ((df1.filter (fun s => s.current_member == r.current_member)).map
            (fun s => s.duration)))
      else none
    tenure_current_party :=
      if r.current_member == "yes" then
        r.duration.map (descRank
          ((df1.filter (fun s =>
              s.current_member == r.current_member && s.partyName == r.partyName)).map
            (fun s => s.duration)))
      else none
    party_all_time_count :=
      some ((df1.filter (fun s => s.partyName == r.partyName)).length : Int)
    party_current_count :=
      some ((df1.filter (fun s =>
          s.partyName == r.partyName && s.current_member == r.current_member)).length : Int) }

def add_tenure (df : List Rec) : Except Err (List Rec) :=
  let df1 := df.map withDuration
  if df1.all (fun r => r.duration.isSome) then
    .ok (df1.map (tenureColumns df1))
  else .error .intCastNaN

/-! ## `only_current` (modify_reps.py lines 80-82) -/

def only_current (df : List Rec) : List Rec :=
  df.filter (fun r => r.current_member == "yes")

/-! ## `normalize_name` (modify_reps.py lines 84-86)

`df['name'].str.split(', ').str[::-1].str.join(' ')`: split each name
on the two-character separator `", "` (leftmost, non-overlapping, as
Python `str.split` does for a non-empty separator), reverse the token
list, and join with single spaces.  The split is spelled out over
`List Char`. -/

def splitCS : List Char → List Char → List (List Char)
  | acc, [] => [acc.reverse]
  | acc, [c] => [(c :: acc).reverse]
  | acc, c₁ :: c₂ :: rest =>
    if c₁ = ',' ∧ c₂ = ' ' then acc.reverse :: splitCS [] rest
    else splitCS (c₁ :: acc) (c₂ :: rest)

/-- Whether the separator `", "` occurs in the string. -/
def hasCommaSpace : List Char → Bool
  | [] => false
  | [_] => false
  | c₁ :: c₂ :: rest => (c₁ = ',' && c₂ = ' ') || hasCommaSpace (c₂ :: rest)

def nameNormalize (s : String) : String :=
  String.mk (List.intercalate [' '] (splitCS [] s.data).reverse)

def normalize_name (df : List Rec) : List Rec :=
  df.map (fun r => { r with name := nameNormalize r.name })

/-! ## Spec-side rank characterization

The specification defines the rank fields as descending competition
ranks: longest duration gets rank 1, ties share the minimum rank, and
the next distinct value's rank skips ahead by the tie-group size.  The
characterizing formula of competition ranking over a list of (integer)
durations: -/

/-- Descending competition rank of `d` among `vals`: one more than the
number of entries strictly greater than `d`. -/
def compRankSpec (vals : List Int) (d : Int) : Int :=
  1 + (vals.countP (fun w => decide (d < w)) : Int)

/-- The integer durations of a fully-normalized table, as the
specification computes them: `endYear - startYear` per record. -/
def durationsOf (df : List Rec) : List Int :=
  df.map (fun r => r.endYear.getD 0 - r.startYear)

/-! ## Sample records for concrete evaluation -/

def recHouse : Rec :=
  { bioguideID := "H1", name := "Smith, John", partyName := "Democratic", state := "CA",
    chamber := "House of Representatives", startYear := 2019, endYear := none }

def recSenate : Rec :=
  { bioguideID := "S1", name := "Doe, Jane", partyName := "Republican", state := "TX",
    chamber := "Senate", startYear := 2021, endYear := none }

def recPast : Rec :=
  { bioguideID := "O1", name := "Old, Al", partyName := "Democratic", state := "NY",
    chamber := "Senate", startYear := 1993, endYear := some 2011 }

def recGov : Rec :=
  { bioguideID := "G1", name := "Gov, Bo", partyName := "Democratic", state := "WA",
    chamber := "Governor", startYear := 2019, endYear := none }

/-- `recHouse` as `update_endyear` leaves it in year 2025. -/
def recHouseNorm : Rec := { recHouse with endYear := some 2027, current_member := "yes" }

/-- `recPast` as `update_endyear` leaves it (any year). -/
def recPastNorm : Rec := { recPast with current_member := "no" }

/-- The input table for the `update_endyear` witness and the output it
produces in year 2025. -/
def normDf : List Rec := [recHouse, recSenate, recPast]

def normDfOut : List Rec := (update_endyear 2025 normDf).toOption.getD []

/-- The specification's ranking scenario: two records with duration 10
and one with duration 8, in an already-normalized (post
`update_endyear`) state. -/
def recT1 : Rec :=
  { bioguideID := "A1", name := "Aa, Al", partyName := "Democratic", state := "AA",
    chamber := "Senate", startYear := 2015, endYear := some 2025, current_member := "yes" }

def recT2 : Rec :=
  { bioguideID := "B2", name := "Bb, Bo", partyName := "Democratic", state := "BB",
    chamber := "Senate", startYear := 2000, endYear := some 2010, current_member := "no" }

def recT3 : Rec :=
  { bioguideID := "C3", name := "Cc, Cy", partyName := "Republican", state := "CC",
    chamber := "Senate", startYear := 2017, endYear := some 2025, current_member := "yes" }

def scenarioDf : List Rec := [recT1, recT2, recT3]

def scenarioOut : List Rec := (add_tenure scenarioDf).toOption.getD []

/-! # Theorems -/

/-! ## Helper lemmas for the name normalizer -/

/-- Splitting a string that contains no `", "` separator yields the
single accumulated token. -/
theorem splitCS_no_sep : ∀ (s acc : List Char), hasCommaSpace s = false →
    splitCS acc s = [acc.reverse ++ s]
  | [], acc, _ => by simp [splitCS]
  | [c], acc, _ => by simp [splitCS]
  | c₁ :: c₂ :: rest, acc, h => by
    simp only [hasCommaSpace, Bool.or_eq_false_iff, Bool.and_eq_false_iff] at h
    have hcs : ¬(c₁ = ',' ∧ c₂ = ' ') := by
      rcases h.1 with h1 | h1 <;> intro hc <;> simp [hc.1, hc.2] at h1
    rw [splitCS.eq_3, if_neg hcs, splitCS_no_sep (c₂ :: rest) (c₁ :: acc) h.2]
    simp

/-- A name with no `", "` separator passes through `nameNormalize`
unchanged. -/
theorem nameNormalize_no_sep (s : String) (h : hasCommaSpace s.data = false) :
    nameNormalize s = s := by
  obtain ⟨data⟩ := s
  simp only [nameNormalize]
  rw [splitCS_no_sep data [] h]
  simp [List.intercalate]

/-- C6.  Name Normalizer: `nameNormalize` splits the name on `", "`,
reverses the token order and rejoins with single spaces, so
`"Smith, John"` becomes `"John Smith"`, `"Smith, John, Jr."` becomes
`"Jr. John Smith"` (mechanical token reversal, not a first/last slot
swap), and a table whose names contain no `", "` separator passes
through `normalize_name` unchanged. -/
theorem name_normalizer_contract (df : List Rec)
    (h : ∀ r ∈ df, hasCommaSpace r.name.data = false) :
    nameNormalize "Smith, John" = "John Smith" ∧
    nameNormalize "Smith, John, Jr." = "Jr. John Smith" ∧
    normalize_name df = df := by
  refine ⟨by decide, by decide, ?_⟩
  unfold normalize_name
  rw [List.map_congr_left (g := id) fun r hr => ?_, List.map_id]
  rw [nameNormalize_no_sep r.name (h r hr)]
  rfl

/-- Witness for C6 at a concrete table. -/
theorem name_normalizer_contract_witness :
    (∀ r ∈ [{ recPast with name := "Madison" }], hasCommaSpace r.name.data = false) ∧
    (nameNormalize "Smith, John" = "John Smith" ∧
      nameNormalize "Smith, John, Jr." = "Jr. John Smith" ∧
      normalize_name [{ recPast with name := "Madison" }] = [{ recPast with name := "Madison" }]) :=
  ⟨by decide, name_normalizer_contract [{ recPast with name := "Madison" }] (by decide)⟩

/-- C5.  Current-Member Filter: `only_current` keeps exactly the
records with `current_member = "yes"`: every surviving record has
`current_member = "yes"`, every input record with `current_member =
"yes"` survives with its input multiplicity, and the output is a
sublist of the input (order preserved, no field altered). -/
theorem only_current_filter_spec (df : List Rec) :
    (∀ r ∈ only_current df, r.current_member = "yes") ∧
    (∀ r : Rec, r.current_member = "yes" → (only_current df).count r = df.count r) ∧
    List.Sublist (only_current df) df := by
  refine ⟨?_, ?_, List.filter_sublist df⟩
  · intro r hr
    simpa using (List.mem_filter.mp hr).2
  · intro r hr
    exact List.count_filter (by simpa using hr)

/-- Witness for C5 at a concrete table. -/
theorem only_current_filter_spec_witness :
    recT1.current_member = "yes" ∧
    (only_current scenarioDf).count recT1 = scenarioDf.count recT1 :=
  ⟨by decide, (only_current_filter_spec scenarioDf).2.1 recT1 (by decide)⟩

/-! ## C7: unrecognized chamber -/

/-- Counterexample for C7.  On a record with an absent `endYear` and an
unrecognized chamber, `update_endyear` raises the pandas integer-cast
error, not `UnrecognizedChamberError` (no code path produces the
latter). -/
theorem unrecognized_chamber_counterexample :
    update_endyear 2025 [recGov] = Except.error Err.intCastNaN ∧
    update_endyear 2025 [recGov] ≠ Except.error Err.unrecognizedChamber := by decide

/-- C7 (amended).  If any record has an absent `endYear` and a chamber
outside the two recognized values, `update_endyear` fails loudly — but
with the integer-cast error raised by `astype(int)` on the
still-missing `endYear`, not with `UnrecognizedChamberError`. -/
theorem update_endyear_unrecognized (year : Int) (df : List Rec) (r : Rec) (hr : r ∈ df)
    (he : r.endYear = none) (hH : r.chamber ≠ "House of Representatives")
    (hS : r.chamber ≠ "Senate") :
    update_endyear year df = Except.error Err.intCastNaN := by
  simp only [update_endyear]
  split
  next hc =>
    exfalso
    rw [List.all_eq_true] at hc
    have hm := hc _ (List.mem_map_of_mem (fillSenate year)
      (List.mem_map_of_mem (fillHouse year) (List.mem_map_of_mem classifyCurrent hr)))
    simp [classifyCurrent, fillHouse, fillSenate, he, hH, hS] at hm
  next => rfl

/-- Witness for the amended C7. -/
theorem update_endyear_unrecognized_witness :
    recGov ∈ [recHouse, recGov] ∧ recGov.endYear = none ∧
    recGov.chamber ≠ "House of Representatives" ∧ recGov.chamber ≠ "Senate" ∧
    update_endyear 2025 [recHouse, recGov] = Except.error Err.intCastNaN :=
  ⟨by decide, by decide, by decide, by decide,
    update_endyear_unrecognized 2025 [recHouse, recGov] recGov (by decide) (by decide)
      (by decide) (by decide)⟩

/-! ## C8: re-running the Term Normalizer -/

/-- Counterexample for C8.  `recHouseNorm` is an already-normalized
record (its `endYear` is present), yet a second application of
`update_endyear` changes it: `current_member` is reset from `"yes"` to
`"no"`. -/
theorem update_endyear_not_idempotent :
    update_endyear 2025 [recHouse] = Except.ok [recHouseNorm] ∧
    recHouseNorm.endYear = some 2027 ∧
    update_endyear 2025 [recHouseNorm] =
      Except.ok [{ recHouseNorm with current_member := "no" }] ∧
    ({ recHouseNorm with current_member := "no" } : Rec) ≠ recHouseNorm := by decide

/-- Every record in a successful `update_endyear` output has a present
`endYear` (the `astype(int)` guard). -/
theorem update_endyear_ok_isSome (y : Int) (df df' : List Rec)
    (h : update_endyear y df = Except.ok df') :
    ∀ r ∈ df', r.endYear.isSome = true := by
  simp only [update_endyear] at h
  split at h
  next hc =>
    injection h with h'
    subst h'
    rw [List.all_eq_true] at hc
    exact hc
  next => simp at h

/-- C8 (amended).  Re-running `update_endyear` on an already-normalized
table leaves `endYear` and every other field unchanged but resets
`current_member` to `"no"`; it is a strict no-op precisely when every
record already has `current_member = "no"` (i.e. had a present
`endYear` at input), while records normalized from an absent `endYear`
have `current_member` flipped from `"yes"` to `"no"`. -/
theorem update_endyear_reapply (y₁ y₂ : Int) (df df' : List Rec)
    (h : update_endyear y₁ df = Except.ok df') :
    update_endyear y₂ df' =
      Except.ok (df'.map (fun r => { r with current_member := "no" })) ∧
    ((∀ r ∈ df', r.current_member = "no") → update_endyear y₂ df' = Except.ok df') := by
  have hs : ∀ r ∈ df', r.endYear.isSome = true := update_endyear_ok_isSome y₁ df df' h
  have h1 : df'.map classifyCurrent = df'.map (fun r => { r with current_member := "no" }) := by
    refine List.map_congr_left fun r hr => ?_
    obtain ⟨e, he⟩ := Option.isSome_iff_exists.mp (hs r hr)
    simp [classifyCurrent, he]
  have hmem : ∀ x ∈ df'.map (fun r => { r with current_member := "no" }),
      x.endYear.isSome = true := by
    intro x hx
    obtain ⟨r, hr, rfl⟩ := List.mem_map.mp hx
    exact hs r hr
  have hfillH : (df'.map (fun r => { r with current_member := "no" })).map (fillHouse y₂) =
      df'.map (fun r => { r with current_member := "no" }) := by
    rw [List.map_congr_left (g := id) ?_, List.map_id]
    intro x hx
    obtain ⟨e, he⟩ := Option.isSome_iff_exists.mp (hmem x hx)
    simp [fillHouse, he]
  have hfillS : (df'.map (fun r => { r with current_member := "no" })).map (fillSenate y₂) =
      df'.map (fun r => { r with current_member := "no" }) := by
    rw [List.map_congr_left (g := id) ?_, List.map_id]
    intro x hx
    obtain ⟨e, he⟩ := Option.isSome_iff_exists.mp (hmem x hx)
    simp [fillSenate, he]
  have hmain : update_endyear y₂ df' =
      Except.ok (df'.map (fun r => { r with current_member := "no" })) := by
    simp only [update_endyear]
    rw [h1, hfillH, hfillS, if_pos]
    rw [List.all_eq_true]
    exact hmem
  refine ⟨hmain, fun hno => ?_⟩
  rw [hmain]
  congr 1
  rw [List.map_congr_left (g := id) ?_, List.map_id]
  intro r hr
  have hcm := hno r hr
  show ({ r with current_member := "no" } : Rec) = r
  rw [← hcm]

/-- Witness for the amended C8. -/
theorem update_endyear_reapply_witness :
    update_endyear 2025 [recHouse, recPast] = Except.ok [recHouseNorm, recPastNorm] ∧
    update_endyear 2025 [recHouseNorm, recPastNorm] =
      Except.ok ([recHouseNorm, recPastNorm].map (fun r => { r with current_member := "no" })) :=
  ⟨by decide,
    (update_endyear_reapply 2025 2025 [recHouse, recPast] [recHouseNorm, recPastNorm]
      (by decide)).1⟩

/-! ## C9: dependence on the present year -/

/-- C9.  The value `update_endyear` reads for "today's year" changes
its output: the same input table normalized under ambient year 2025 and
under ambient year 2027 yields different tables.  In the source this
year is `int(date.today().year)` (modify_reps.py line 36), an ambient
clock read, not an injected parameter. -/
theorem update_endyear_year_dependent :
    update_endyear 2025 [recHouse] ≠ update_endyear 2027 [recHouse] := by decide

/-! ## C10: the alternate normalizer `mod_json` -/

/-- C10.  `mod_json` fills an absent `endYear` with exactly
`startYear + 6` when `chamber` case-insensitively equals `"Senate"` and
with `startYear + 2` when it case-insensitively equals
`"House of Representatives"`; a record with a present `endYear` or an
unrecognized chamber is left completely unchanged, and `current_member`
is never set. -/
theorem mod_json_contract (df : List Rec) (i : Nat) (hi : i < df.length)
    (hi' : i < (mod_json df).length) :
    (df[i].endYear = none →
      (strLower df[i].chamber = "senate" →
        (mod_json df)[i] = { df[i] with endYear := some (df[i].startYear + 6) }) ∧
      (strLower df[i].chamber = "house of representatives" →
        (mod_json df)[i] = { df[i] with endYear := some (df[i].startYear + 2) }) ∧
      (strLower df[i].chamber ≠ "senate" →
        strLower df[i].chamber ≠ "house of representatives" →
        (mod_json df)[i] = df[i])) ∧
    (∀ e : Int, df[i].endYear = some e → (mod_json df)[i] = df[i]) ∧
    ((mod_json df)[i]).current_member = df[i].current_member := by
  have hSen : strLower "Senate" = "senate" := by decide
  have hHor : strLower "House of Representatives" = "house of representatives" := by decide
  have hne : ("house of representatives" : String) ≠ "senate" := by decide
  have hx : (mod_json df)[i] = mod_json_row df[i] := by
    simp [mod_json]
  rw [hx]
  refine ⟨fun he => ⟨?_, ?_, ?_⟩, fun e he => ?_, ?_⟩
  · intro hsen
    simp [mod_json_row, he, hSen, hsen]
  · intro hhor
    simp [mod_json_row, he, hSen, hHor, hhor, hne]
  · intro hs hh
    simp [mod_json_row, he, hSen, hHor, hs, hh]
  · simp [mod_json_row, he]
  · unfold mod_json_row
    repeat' split
    all_goals rfl

/-- Witness for C10. -/
theorem mod_json_contract_witness :
    recSenate.endYear = none ∧ strLower recSenate.chamber = "senate" ∧
    (mod_json [recSenate, recPast]).get ⟨0, by decide⟩ =
      { recSenate with endYear := some (recSenate.startYear + 6) } :=
  ⟨by decide, by decide,
    ((mod_json_contract [recSenate, recPast] 0 (by decide) (by decide)).1
      (by decide)).1 (by decide)⟩

/-! ## C1: the Term Normalizer contract -/

/-- C1.  For every input record: if `endYear` is absent,
`update_endyear` sets `current_member` to `"yes"` and fills `endYear`
with `currentYear + 2 - ((currentYear - startYear) mod 2)` for the
House and `currentYear + 6 - ((currentYear - startYear) mod 6)` for the
Senate; if `endYear` is present it is left unchanged and
`current_member` is set to `"no"`; `"yes"` arises only from an absent
`endYear`; and the resulting `endYear` is a present integer. -/
theorem update_endyear_contract (year : Int) (df df' : List Rec)
    (h : update_endyear year df = Except.ok df')
    (i : Nat) (hi : i < df.length) (hi' : i < df'.length) :
    (df[i].endYear = none →
      (df'[i]).current_member = "yes" ∧
      (df[i].chamber = "House of Representatives" →
        (df'[i]).endYear = some (year + 2 - (year - df[i].startYear) % 2)) ∧
      (df[i].chamber = "Senate" →
        (df'[i]).endYear = some (year + 6 - (year - df[i].startYear) % 6))) ∧
    (∀ e : Int, df[i].endYear = some e →
      (df'[i]).endYear = some e ∧ (df'[i]).current_member = "no") ∧
    ((df'[i]).current_member = "yes" → df[i].endYear = none) ∧
    (df'[i]).endYear.isSome = true := by
  simp only [update_endyear] at h
  split at h
  next hc =>
    injection h with h'
    subst h'
    have hx : (((df.map classifyCurrent).map (fillHouse year)).map (fillSenate year))[i] =
        fillSenate year (fillHouse year (classifyCurrent df[i])) := by
      simp [List.getElem_map]
    rw [hx]
    have h4 : (fillSenate year (fillHouse year (classifyCurrent df[i]))).endYear.isSome = true := by
      rw [← hx]
      rw [List.all_eq_true] at hc
      exact hc _ (List.getElem_mem hi')
    rcases hre : df[i].endYear with _ | e
    · refine ⟨?_, ?_, ?_, ?_⟩
      · intro _
        by_cases hh : df[i].chamber = "House of Representatives"
        · refine ⟨?_, fun _ => ?_, fun hsen => ?_⟩
          · simp [classifyCurrent, fillHouse, fillSenate, hre, hh]
          · simp [classifyCurrent, fillHouse, fillSenate, hre, hh]
          · rw [hh] at hsen
            exact absurd hsen (by decide)
        · by_cases hs : df[i].chamber = "Senate"
          · refine ⟨?_, fun hhor => absurd hhor hh, fun _ => ?_⟩
            · simp [classifyCurrent, fillHouse, fillSenate, hre, hh, hs]
            · simp [classifyCurrent, fillHouse, fillSenate, hre, hh, hs]
          · exfalso
            simp [classifyCurrent, fillHouse, fillSenate, hre, hh, hs] at h4
      · intro e he
        cases he
      · intro _
        rfl
      · exact h4
    · have hval : fillSenate year (fillHouse year (classifyCurrent df[i])) =
          { df[i] with current_member := "no" } := by
        simp [classifyCurrent, fillHouse, fillSenate, hre]
      rw [hval] at h4 ⊢
      refine ⟨?_, ?_, ?_, ?_⟩
      · intro hnone
        cases hnone
      · intro e₂ he₂
        cases he₂
        exact ⟨hre, rfl⟩
      · intro hy
        have hy' : ("no" : String) = "yes" := hy
        exact absurd hy' (by decide)
      · exact h4
  next => simp at h

/-- Witness for C1. -/
theorem update_endyear_contract_witness :
    update_endyear 2025 normDf = Except.ok normDfOut ∧
    (0 : Nat) < normDf.length ∧ (0 : Nat) < normDfOut.length ∧
    ((normDf.get ⟨0, by decide⟩).endYear = none →
      (normDfOut.get ⟨0, by decide⟩).current_member = "yes" ∧
      ((normDf.get ⟨0, by decide⟩).chamber = "House of Representatives" →
        (normDfOut.get ⟨0, by decide⟩).endYear =
          some (2025 + 2 - (2025 - (normDf.get ⟨0, by decide⟩).startYear) % 2)) ∧
      ((normDf.get ⟨0, by decide⟩).chamber = "Senate" →
        (normDfOut.get ⟨0, by decide⟩).endYear =
          some (2025 + 6 - (2025 - (normDf.get ⟨0, by decide⟩).startYear) % 6))) :=
  ⟨by decide, by decide, by decide,
    fun he => ((update_endyear_contract 2025 normDf normDfOut (by decide) 0 (by decide)
      (by decide)).1 he)⟩

/-! ## Helper lemmas for the tenure ranking -/

/-- Unpacking a successful `add_tenure` run: the output shape, and the
fact that every input `endYear` was present (otherwise the
`astype(int)` of the rank columns would have raised). -/
theorem add_tenure_ok_eq (df df' : List Rec) (h : add_tenure df = Except.ok df') :
    df' = (df.map withDuration).map (tenureColumns (df.map withDuration)) ∧
    ∀ r ∈ df, r.endYear.isSome = true := by
  simp only [add_tenure] at h
  split at h
  next hc =>
    injection h with h'
    refine ⟨h'.symm, fun r hr => ?_⟩
    rw [List.all_eq_true] at hc
    have hd := hc _ (List.mem_map_of_mem withDuration hr)
    simpa [withDuration] using hd
  next => simp at h

/-- The embedded pandas rank of a duration column agrees with the
specification's competition-rank formula over the integer durations,
provided every `endYear` is present. -/
theorem descRank_eq_compRankSpec (df : List Rec)
    (hall : ∀ r ∈ df, r.endYear.isSome = true) (d : Int) :
    descRank ((df.map withDuration).map (fun s => s.duration)) d =
      compRankSpec (durationsOf df) d := by
  have hcong : ((df.map withDuration).map (fun s => s.duration)).countP (isGreater d) =
      (durationsOf df).countP (fun w => decide (d < w)) := by
    simp only [List.countP_map, durationsOf]
    apply List.countP_congr
    intro r hr
    obtain ⟨e, he⟩ := Option.isSome_iff_exists.mp (hall r hr)
    simp [Function.comp, withDuration, isGreater, he]
  unfold descRank compRankSpec
  rw [hcong]

/-- Filtering commutes with the duration-assignment pass when the
predicate does not read `duration`. -/
theorem filter_map_withDuration (df : List Rec) (q : Rec → Bool)
    (hq : ∀ r, q (withDuration r) = q r) :
    (df.map withDuration).filter q = (df.filter q).map withDuration := by
  rw [List.filter_map]
  congr 1
  exact List.filter_congr fun r _ => hq r

/-- Counting a predicate that splits as a disjoint union of two
predicates over the members of a list. -/
theorem countP_split (l : List Int) (p q r : Int → Bool)
    (hpq : ∀ a ∈ l, p a = (q a || r a)) (hdisj : ∀ a ∈ l, ¬(q a = true ∧ r a = true)) :
    l.countP p = l.countP q + l.countP r := by
  induction l with
  | nil => simp
  | cons a t ih =>
    have hp := hpq a (by simp)
    have hd := hdisj a (by simp)
    have iht := ih (fun x hx => hpq x (by simp [hx])) (fun x hx => hdisj x (by simp [hx]))
    cases hqa : q a <;> cases hra : r a
    · simp [List.countP_cons, hp, hqa, hra, iht]
    · simp only [List.countP_cons, hp, hqa, hra, iht]
      simp
      omega
    · simp only [List.countP_cons, hp, hqa, hra, iht]
      simp
      omega
    · exact absurd ⟨hqa, hra⟩ hd

/-- The competition-ranking "skip" law: if nothing in `vals` lies
strictly between `d₂` and `d₁`, the rank of `d₂` exceeds the rank of
`d₁` by the number of entries tied at `d₁`. -/
theorem compRankSpec_skip (vals : List Int) (d₁ d₂ : Int) (hlt : d₂ < d₁)
    (hgap : ∀ w ∈ vals, ¬(d₂ < w ∧ w < d₁)) :
    compRankSpec vals d₂ =
      compRankSpec vals d₁ + (vals.countP (fun w => w == d₁) : Int) := by
  unfold compRankSpec
  rw [countP_split vals (fun w => decide (d₂ < w)) (fun w => decide (d₁ < w))
    (fun w => w == d₁) ?_ ?_]
  · push_cast
    ring
  · intro a ha
    have hg := hgap a ha
    rw [Bool.eq_iff_iff]
    simp only [decide_eq_true_eq, Bool.or_eq_true, beq_iff_eq]
    omega
  · intro a ha
    simp only [decide_eq_true_eq, beq_iff_eq]
    rintro ⟨h2, h3⟩
    omega

/-! ## C2: tenure ranking -/

/-- C2.  After `add_tenure`: `duration = endYear - startYear`;
`tenure_all_time` is the descending competition rank of `duration`
among all records (characterized by the `compRankSpec` formula: one
plus the number of strictly longer durations, so the longest duration
gets rank 1 and ties share the minimum rank); `tenure_all_time_party`
is the same rank within the record's `partyName` group; the next
distinct duration's rank skips ahead by the tie-group size; and on the
specification's scenario (durations 10, 10, 8) the ranks are 1, 1, 3. -/
theorem add_tenure_ranking (df df' : List Rec) (h : add_tenure df = Except.ok df')
    (i : Nat) (hi : i < df.length) (hi' : i < df'.length)
    (e : Int) (he : df[i].endYear = some e) :
    (df'[i]).duration = some (e - df[i].startYear) ∧
    (df'[i]).tenure_all_time =
      some (compRankSpec (durationsOf df) (e - df[i].startYear)) ∧
    (df'[i]).tenure_all_time_party =
      some (compRankSpec
        (durationsOf (df.filter (fun s => s.partyName == df[i].partyName)))
        (e - df[i].startYear)) ∧
    ((∀ w ∈ durationsOf df, w ≤ e - df[i].startYear) →
      (df'[i]).tenure_all_time = some 1) ∧
    (∀ d₂ : Int, d₂ < e - df[i].startYear →
      (∀ w ∈ durationsOf df, ¬(d₂ < w ∧ w < e - df[i].startYear)) →
      compRankSpec (durationsOf df) d₂ =
        compRankSpec (durationsOf df) (e - df[i].startYear) +
          ((durationsOf df).countP (fun w => w == e - df[i].startYear) : Int)) ∧
    (add_tenure scenarioDf).map (List.map (fun r => r.tenure_all_time)) =
      Except.ok [some 1, some 1, some 3] := by
  obtain ⟨hdf', hall⟩ := add_tenure_ok_eq df df' h
  subst hdf'
  have hx : ((df.map withDuration).map (tenureColumns (df.map withDuration)))[i] =
      tenureColumns (df.map withDuration) (withDuration df[i]) := by
    simp [List.getElem_map]
  rw [hx]
  have hdur : (withDuration df[i]).duration = some (e - df[i].startYear) := by
    simp [withDuration, he]
  have hta : (tenureColumns (df.map withDuration) (withDuration df[i])).tenure_all_time =
      some (compRankSpec (durationsOf df) (e - df[i].startYear)) := by
    show (withDuration df[i]).duration.map
      (descRank ((df.map withDuration).map (fun s => s.duration))) = _
    rw [hdur, Option.map_some', descRank_eq_compRankSpec df hall]
  refine ⟨hdur, hta, ?_, ?_, ?_, by decide⟩
  · show (withDuration df[i]).duration.map
      (descRank (((df.map withDuration).filter
        (fun s => s.partyName == df[i].partyName)).map (fun s => s.duration))) = _
    rw [hdur, Option.map_some',
      filter_map_withDuration df (fun s => s.partyName == df[i].partyName) (fun _ => rfl),
      descRank_eq_compRankSpec (df.filter (fun s => s.partyName == df[i].partyName))
        (fun r hr => hall r (List.mem_of_mem_filter hr))]
  · intro hmax
    rw [hta]
    have hzero : (durationsOf df).countP
        (fun w => decide (e - df[i].startYear < w)) = 0 := by
      rw [List.countP_eq_zero]
      intro w hw
      simp only [decide_eq_true_eq]
      exact not_lt.mpr (hmax w hw)
    unfold compRankSpec
    rw [hzero]
    simp
  · intro d₂ h1 h2
    exact compRankSpec_skip (durationsOf df) (e - df[i].startYear) d₂ h1 h2

/-- Witness for C2 on the specification's scenario table. -/
theorem add_tenure_ranking_witness :
    add_tenure scenarioDf = Except.ok scenarioOut ∧
    (scenarioDf.get ⟨0, by decide⟩).endYear = some 2025 ∧
    (scenarioOut.get ⟨0, by decide⟩).tenure_all_time =
      some (compRankSpec (durationsOf scenarioDf)
        (2025 - (scenarioDf.get ⟨0, by decide⟩).startYear)) :=
  ⟨by decide, by decide,
    (add_tenure_ranking scenarioDf scenarioOut (by decide) 0 (by decide) (by decide) 2025
      (by decide)).2.1⟩

/-! ## C3: current-only rank nullability -/

/-- C3.  After `add_tenure`, `tenure_current` and
`tenure_current_party` are non-null exactly for records with
`current_member = "yes"`; when non-null, `tenure_current` is the
descending competition rank of `duration` among the current-member
records only, and `tenure_current_party` the same rank further
partitioned by `partyName`. -/
theorem tenure_current_nullability (df df' : List Rec) (h : add_tenure df = Except.ok df')
    (i : Nat) (hi : i < df.length) (hi' : i < df'.length) :
    ((df'[i]).tenure_current ≠ none ↔ (df'[i]).current_member = "yes") ∧
    ((df'[i]).tenure_current_party ≠ none ↔ (df'[i]).current_member = "yes") ∧
    (∀ e : Int, df[i].endYear = some e → df[i].current_member = "yes" →
      (df'[i]).tenure_current = some (compRankSpec
        (durationsOf (df.filter (fun s => s.current_member == "yes")))
        (e - df[i].startYear)) ∧
      (df'[i]).tenure_current_party = some (compRankSpec
        (durationsOf (df.filter (fun s =>
          s.current_member == "yes" && s.partyName == df[i].partyName)))
        (e - df[i].startYear))) := by
  obtain ⟨hdf', hall⟩ := add_tenure_ok_eq df df' h
  subst hdf'
  have hx : ((df.map withDuration).map (tenureColumns (df.map withDuration)))[i] =
      tenureColumns (df.map withDuration) (withDuration df[i]) := by
    simp [List.getElem_map]
  rw [hx]
  obtain ⟨e₀, he₀⟩ := Option.isSome_iff_exists.mp (hall df[i] (List.getElem_mem hi))
  have hdur : (withDuration df[i]).duration = some (e₀ - df[i].startYear) := by
    simp [withDuration, he₀]
  refine ⟨?_, ?_, ?_⟩
  · show (if df[i].current_member == "yes" then
        (withDuration df[i]).duration.map (descRank (((df.map withDuration).filter
          (fun s => s.current_member == df[i].current_member)).map (fun s => s.duration)))
      else none) ≠ none ↔ df[i].current_member = "yes"
    by_cases hy : df[i].current_member = "yes"
    · simp [hy, hdur]
    · simp [hy]
  · show (if df[i].current_member == "yes" then
        (withDuration df[i]).duration.map (descRank (((df.map withDuration).filter
          (fun s => s.current_member == df[i].current_member &&
            s.partyName == df[i].partyName)).map (fun s => s.duration)))
      else none) ≠ none ↔ df[i].current_member = "yes"
    by_cases hy : df[i].current_member = "yes"
    · simp [hy, hdur]
    · simp [hy]
  · intro e he hcm
    have hdur2 : (withDuration df[i]).duration = some (e - df[i].startYear) := by
      simp [withDuration, he]
    have hcond : (("yes" : String) == "yes") = true := rfl
    constructor
    · show (if df[i].current_member == "yes" then
          (withDuration df[i]).duration.map (descRank (((df.map withDuration).filter
            (fun s => s.current_member == df[i].current_member)).map (fun s => s.duration)))
        else none) = _
      rw [hcm, if_pos hcond, hdur2, Option.map_some',
        filter_map_withDuration df (fun s => s.current_member == "yes") (fun _ => rfl),
        descRank_eq_compRankSpec _ (fun r hr => hall r (List.mem_of_mem_filter hr))]
    · show (if df[i].current_member == "yes" then
          (withDuration df[i]).duration.map (descRank (((df.map withDuration).filter
            (fun s => s.current_member == df[i].current_member &&
              s.partyName == df[i].partyName)).map (fun s => s.duration)))
        else none) = _
      rw [hcm, if_pos hcond, hdur2, Option.map_some',
        filter_map_withDuration df (fun s => s.current_member == "yes" &&
          s.partyName == df[i].partyName) (fun _ => rfl),
        descRank_eq_compRankSpec _ (fun r hr => hall r (List.mem_of_mem_filter hr))]

/-- Witness for C3 on the scenario table. -/
theorem tenure_current_nullability_witness :
    add_tenure scenarioDf = Except.ok scenarioOut ∧
    (scenarioOut.get ⟨0, by decide⟩).tenure_current = some (compRankSpec
      (durationsOf (scenarioDf.filter (fun s => s.current_member == "yes")))
      (2025 - (scenarioDf.get ⟨0, by decide⟩).startYear)) :=
  ⟨by decide,
    ((tenure_current_nullability scenarioDf scenarioOut (by decide) 0 (by decide)
      (by decide)).2.2 2025 (by decide) (by decide)).1⟩

/-! ## C4: party counts -/

/-- C4.  After `add_tenure`, `party_all_time_count` is the number of
records sharing the record's `partyName`, and `party_current_count` the
number of records sharing both its `partyName` and its
`current_member` value. -/
theorem party_counts_after_add_tenure (df df' : List Rec)
    (h : add_tenure df = Except.ok df')
    (i : Nat) (hi : i < df.length) (hi' : i < df'.length) :
    (df'[i]).party_all_time_count =
      some (((df.filter (fun s => s.partyName == df[i].partyName)).length : Int)) ∧
    (df'[i]).party_current_count =
      some (((df.filter (fun s => s.partyName == df[i].partyName &&
        s.current_member == df[i].current_member)).length : Int)) := by
  obtain ⟨hdf', hall⟩ := add_tenure_ok_eq df df' h
  subst hdf'
  have hx : ((df.map withDuration).map (tenureColumns (df.map withDuration)))[i] =
      tenureColumns (df.map withDuration) (withDuration df[i]) := by
    simp [List.getElem_map]
  rw [hx]
  constructor
  · show some ((((df.map withDuration).filter
        (fun s => s.partyName == df[i].partyName)).length : Int)) = _
    rw [filter_map_withDuration df (fun s => s.partyName == df[i].partyName) (fun _ => rfl),
      List.length_map]
  · show some ((((df.map withDuration).filter
        (fun s => s.partyName == df[i].partyName &&
          s.current_member == df[i].current_member)).length : Int)) = _
    rw [filter_map_withDuration df (fun s => s.partyName == df[i].partyName &&
        s.current_member == df[i].current_member) (fun _ => rfl),
      List.length_map]

/-- Witness for C4 on the scenario table. -/
theorem party_counts_witness :
    add_tenure scenarioDf = Except.ok scenarioOut ∧
    (scenarioOut.get ⟨0, by decide⟩).party_all_time_count =
      some (((scenarioDf.filter (fun s =>
        s.partyName == (scenarioDf.get ⟨0, by decide⟩).partyName)).length : Int)) :=
  ⟨by decide,
    (party_counts_after_add_tenure scenarioDf scenarioOut (by decide) 0 (by decide)
      (by decide)).1⟩
